import Mathlib

/-!
Verification of the Life-Tracking derived-metrics engine.

Shallow embedding conventions:
* JS numbers that hold money amounts, prices or health values are modelled as `ℚ`
  (exact rational arithmetic; the engine only adds, subtracts, multiplies and divides).
* `YYYY-MM-DD` date strings are modelled as the natural number `y*10000 + m*100 + d`.
  For zero-padded well-formed date strings, lexicographic string comparison,
  `new Date(s).getTime()` comparison and this numeric encoding induce the same
  total order, so every comparison the source performs on dates is preserved.
* Opaque ids (`generateId()`) are modelled as `String`.
* `Array.prototype.sort` with a comparator is a stable sort (ES2019).
  `List.insertionSort r` with the comparator's reflexive `≤`-relation `r` is the
  stable sort for the same key order, hence computes the same list.
* `createdAt` is optional and the source reads it as `s.createdAt || 0`,
  modelled by `Option Nat` and `Option.getD · 0`.
-/

namespace LifeTrack

/-- `AssetType` from src/types.ts. -/
inductive AssetType where
  | ETF
  | Stock
  | Crypto
deriving DecidableEq

/-- `TradeType` from src/types.ts. -/
inductive TradeType where
  | Buy
  | Sell
deriving DecidableEq

/-- `'Add' | 'Withdraw'` transaction direction from src/types.ts. -/
inductive TxType where
  | Add
  | Withdraw
deriving DecidableEq

/-- `HealthMetricType` from src/types.ts. -/
inductive HealthMetricType where
  | Weight
  | Steps
  | Calories
deriving DecidableEq

/-- `Asset` from src/types.ts. -/
structure Asset where
  id : String
  name : String
  type : AssetType
  notes : Option String
deriving DecidableEq

/-- `Deposit` from src/types.ts (amount is signed EUR). -/
structure Deposit where
  id : String
  assetId : String
  date : Nat
  amount : ℚ
  note : Option String
deriving DecidableEq

/-- `Trade` from src/types.ts. -/
structure Trade where
  id : String
  assetId : String
  date : Nat
  type : TradeType
  units : ℚ
  price : ℚ
  fees : Option ℚ
  notes : Option String
deriving DecidableEq

/-- `Snapshot` from src/types.ts. -/
structure Snapshot where
  id : String
  assetId : String
  date : Nat
  price : ℚ
  createdAt : Option Nat
deriving DecidableEq

/-- `Expense` from src/types.ts. -/
structure Expense where
  id : String
  amount : ℚ
  date : Nat
  category : String
  merchant : String
  paymentMethod : Option String
  notes : Option String
deriving DecidableEq

/-- `SavingsBucket` from src/types.ts. -/
structure SavingsBucket where
  id : String
  name : String
  target : Option ℚ
deriving DecidableEq

/-- `SavingsTransaction` from src/types.ts. -/
structure SavingsTransaction where
  id : String
  bucketId : String
  amount : ℚ
  date : Nat
  type : TxType
  notes : Option String
deriving DecidableEq

/-- `EmergencyTransaction` from src/types.ts. -/
structure EmergencyTransaction where
  id : String
  amount : ℚ
  date : Nat
  type : TxType
  notes : Option String
  target : Option ℚ
deriving DecidableEq

/-- `HealthLog` from src/types.ts. -/
structure HealthLog where
  id : String
  date : Nat
  type : HealthMetricType
  value : ℚ
deriving DecidableEq

/-- `Settings` from src/types.ts. -/
structure Settings where
  heightCm : ℚ
  eurRate : ℚ
  eurRateDate : Nat
  expenseCategories : List String
  emergencyTarget : ℚ
  targetWeight : Option ℚ
  targetDate : Option Nat
  stepTarget : Option ℚ
  calorieTarget : Option ℚ
deriving DecidableEq

/-- `AppData` from src/types.ts. -/
structure AppData where
  assets : List Asset
  trades : List Trade
  deposits : List Deposit
  snapshots : List Snapshot
  expenses : List Expense
  savingsBuckets : List SavingsBucket
  savingsTransactions : List SavingsTransaction
  emergencyTransactions : List EmergencyTransaction
  healthLogs : List HealthLog
  settings : Settings
deriving DecidableEq

/-! ### Snapshot ordering (src/unnamed/part_002, portfolio useMemo, lines 37-42)

The comparator sorts by `new Date(date).getTime()` ascending, breaking ties by
`(createdAt || 0)` ascending.  `snapKey` is the sort key and `snapKeyLE` the
reflexive order the stable sort realises. -/

/-- Sort key of the portfolio snapshot sort: `(date, createdAt || 0)`. -/
def snapKey (s : Snapshot) : Nat × Nat :=
  (s.date, s.createdAt.getD 0)

/-- `s` sorts no later than `t` under the part_002 portfolio comparator. -/
def snapKeyLE (s t : Snapshot) : Prop :=
  s.date < t.date ∨ (s.date = t.date ∧ s.createdAt.getD 0 ≤ t.createdAt.getD 0)

instance : DecidableRel snapKeyLE := fun s t => by
  unfold snapKeyLE; infer_instance

instance : IsTotal Snapshot snapKeyLE := by
  constructor
  intro s t
  unfold snapKeyLE
  omega

instance : IsTrans Snapshot snapKeyLE := by
  constructor
  intro s t u hst htu
  unfold snapKeyLE at *
  omega

/-- The stable `(date, createdAt)` snapshot sort of the portfolio computation. -/
def sortSnapshots (l : List Snapshot) : List Snapshot :=
  l.insertionSort snapKeyLE

/-- Date-only snapshot order used by `activityStats.endOfMonthValue`
(src/unnamed/part_002 line 110 sorts only by `new Date(a.date).getTime()`). -/
def snapDateLE (s t : Snapshot) : Prop :=
  s.date ≤ t.date

instance : DecidableRel snapDateLE := fun s t => by
  unfold snapDateLE; infer_instance

instance : IsTotal Snapshot snapDateLE := by
  constructor
  intro s t
  unfold snapDateLE
  omega

instance : IsTrans Snapshot snapDateLE := by
  constructor
  intro s t u hst htu
  unfold snapDateLE at *
  omega

/-- Date-descending snapshot order of Home.tsx line 16
(`sort((a,b) => new Date(b.date).getTime() - new Date(a.date).getTime())`). -/
def snapDateGE (s t : Snapshot) : Prop :=
  t.date ≤ s.date

instance : DecidableRel snapDateGE := fun s t => by
  unfold snapDateGE; infer_instance

instance : IsTotal Snapshot snapDateGE := by
  constructor
  intro s t
  unfold snapDateGE
  omega

instance : IsTrans Snapshot snapDateGE := by
  constructor
  intro s t u hst htu
  unfold snapDateGE at *
  omega

/-- Date-descending health-log order of Home.tsx line 58 and Health screens. -/
def logDateGE (s t : HealthLog) : Prop :=
  t.date ≤ s.date

instance : DecidableRel logDateGE := fun s t => by
  unfold logDateGE; infer_instance

instance : IsTotal HealthLog logDateGE := by
  constructor
  intro s t
  unfold logDateGE
  omega

instance : IsTrans HealthLog logDateGE := by
  constructor
  intro s t u hst htu
  unfold logDateGE at *
  omega

/-! ### Valuation Engine (src/unnamed/part_002, `portfolio` useMemo, lines 32-78) -/

/-- The per-asset record produced by the part_002 `portfolio` useMemo
(the fields derived from snapshots and deposits). -/
structure AssetValuation where
  hasPrice : Bool
  startPrice : ℚ
  latestPrice : ℚ
  investedAmount : ℚ
  currentValue : ℚ
  priceChangePercent : ℚ
deriving DecidableEq

/-- Per-asset valuation, transliterated from src/unnamed/part_002 lines 33-76:
snapshots of the asset sorted by `(date, createdAt)`, `hasPrice` iff some
snapshot exists, `startPrice`/`latestPrice` the first/last sorted snapshot,
`investedAmount` the signed reduce of the asset deposits, `currentValue`
mark-to-market with invested fallback, and the guarded percent change. -/
def assetValuation (deposits : List Deposit) (snapshots : List Snapshot)
    (a : Asset) : AssetValuation :=
  let snaps := sortSnapshots (snapshots.filter (fun s => s.assetId = a.id))
  let hasPrice := 0 < snaps.length
  let startPrice : ℚ := match snaps.head? with
    | some s => s.price
    | none => 0
  let latestPrice : ℚ := match snaps.getLast? with
    | some s => s.price
    | none => 0
  let investedAmount :=
    (deposits.filter (fun d => d.assetId = a.id)).foldl (fun acc d => acc + d.amount) 0
  let currentValue := if hasPrice then latestPrice else investedAmount
  let priceChangePercent :=
    if 0 < investedAmount then (currentValue - investedAmount) / investedAmount * 100 else 0
  { hasPrice := decide hasPrice
    startPrice := startPrice
    latestPrice := latestPrice
    investedAmount := investedAmount
    currentValue := currentValue
    priceChangePercent := priceChangePercent }

/-- `portfolio.reduce((acc, a) => acc + a.currentValue, 0)`
(src/unnamed/part_002 line 80). -/
def totalCurrentValue (assets : List Asset) (deposits : List Deposit)
    (snapshots : List Snapshot) : ℚ :=
  assets.foldl (fun acc a => acc + (assetValuation deposits snapshots a).currentValue) 0

/-! ### Monthly end-of-month replay (src/unnamed/part_002, lines 96-119) -/

/-- Gregorian leap-year test, as `new Date(y, 1, 29)` realises it. -/
def isLeapYear (y : Nat) : Bool :=
  decide (y % 4 = 0 ∧ (y % 100 ≠ 0 ∨ y % 400 = 0))

/-- `new Date(year, month0 + 1, 0).getDate()`: number of days of month
`month0` (0-based) in `year`. -/
def daysInMonth (year month0 : Nat) : Nat :=
  if month0 = 1 then (if isLeapYear year then 29 else 28)
  else if month0 = 3 ∨ month0 = 5 ∨ month0 = 8 ∨ month0 = 10 then 30
  else 31

/-- The zero-padded `YYYY-MM-DD` string for the last day of the month,
in the numeric date encoding (src/unnamed/part_002 lines 97-98). -/
def endOfMonthDate (year month0 : Nat) : Nat :=
  year * 10000 + (month0 + 1) * 100 + daysInMonth year month0

/-- One asset's contribution to `endOfMonthValue`
(src/unnamed/part_002 lines 101-119): deposits and snapshots restricted to
`date ≤ bound`, the snapshots sorted by date only (stable), then the last
snapshot's price if any, else the restricted invested sum. -/
def eomAssetValue (deposits : List Deposit) (snapshots : List Snapshot)
    (bound : Nat) (a : Asset) : ℚ :=
  let invested :=
    (deposits.filter (fun d => d.assetId = a.id ∧ d.date ≤ bound)).foldl
      (fun acc d => acc + d.amount) 0
  let relevant :=
    (snapshots.filter (fun s => s.assetId = a.id ∧ s.date ≤ bound)).insertionSort snapDateLE
  match relevant.getLast? with
  | some s => s.price
  | none => invested

/-- `activityStats.endOfMonthValue` (src/unnamed/part_002 lines 100-119). -/
def endOfMonthValue (assets : List Asset) (deposits : List Deposit)
    (snapshots : List Snapshot) (bound : Nat) : ℚ :=
  assets.foldl (fun acc a => acc + eomAssetValue deposits snapshots bound a) 0

/-! ### Snapshot upsert (src/unnamed/part_002, `handleUpsertSnapshot`, lines 271-294) -/

/-- The `(assetId, date)` match used by `findIndex` in `handleUpsertSnapshot`. -/
def isPair (aid : String) (dt : Nat) (s : Snapshot) : Prop :=
  s.assetId = aid ∧ s.date = dt

instance (aid : String) (dt : Nat) : DecidablePred (isPair aid dt) := fun s => by
  unfold isPair; infer_instance

/-- `handleUpsertSnapshot` (src/unnamed/part_002 lines 271-294): replace the
first `(assetId, date)` match in place keeping its id with the new price and a
refreshed `createdAt`, else append a freshly generated snapshot.  `now` stands
for `Date.now()` and `freshId` for `generateId()`. -/
def upsertSnapshot (aid : String) (dt : Nat) (price : ℚ) (now : Nat)
    (freshId : String) : List Snapshot → List Snapshot
  | [] => [⟨freshId, aid, dt, price, some now⟩]
  | s :: rest =>
      if s.assetId = aid ∧ s.date = dt then
        { s with price := price, createdAt := some now } :: rest
      else
        s :: upsertSnapshot aid dt price now freshId rest

/-- Number of snapshots matching a given `(assetId, date)` pair. -/
def pairCount (aid : String) (dt : Nat) (l : List Snapshot) : Nat :=
  (l.filter (fun s => s.assetId = aid ∧ s.date = dt)).length

/-! ### Asset deletion -/

/-- `confirmDeleteAsset` (src/unnamed/part_002 lines 301-313): filter the asset
out and cascade-filter snapshots, trades and deposits by `assetId`; the other
collections of the partial `updateData` merge are untouched. -/
def confirmDeleteAsset (d : AppData) (aid : String) : AppData :=
  { d with
    assets := d.assets.filter (fun a => a.id ≠ aid)
    snapshots := d.snapshots.filter (fun s => s.assetId ≠ aid)
    trades := d.trades.filter (fun t => t.assetId ≠ aid)
    deposits := d.deposits.filter (fun dep => dep.assetId ≠ aid) }

/-- `handleDeleteAsset` (src/screens/Investments.tsx lines 97-107): this
revision filters only assets, snapshots and trades — it does not touch
deposits. -/
def handleDeleteAsset (d : AppData) (aid : String) : AppData :=
  { d with
    assets := d.assets.filter (fun a => a.id ≠ aid)
    snapshots := d.snapshots.filter (fun s => s.assetId ≠ aid)
    trades := d.trades.filter (fun t => t.assetId ≠ aid) }

/-! ### Balance ledger reducer (src/unnamed/part_002 lines 1383-1390 and 1571) -/

/-- The savings reduce body: `t.type === 'Add' ? acc + t.amount : acc - t.amount`
folded from 0 over a savings-transaction list. -/
def savingsRunningBalance (txs : List SavingsTransaction) : ℚ :=
  txs.foldl (fun acc t => if t.type = TxType.Add then acc + t.amount else acc - t.amount) 0

/-- Per-bucket balance (src/unnamed/part_002 lines 1383-1390): the running
balance of the transactions filtered by `bucketId`. -/
def bucketBalance (txs : List SavingsTransaction) (bid : String) : ℚ :=
  savingsRunningBalance (txs.filter (fun t => t.bucketId = bid))

/-- `EmergencyView.balance` (src/unnamed/part_002 line 1571): same reduce over
the single emergency ledger. -/
def emergencyBalance (txs : List EmergencyTransaction) : ℚ :=
  txs.foldl (fun acc t => if t.type = TxType.Add then acc + t.amount else acc - t.amount) 0

/-! ### Home screen net-worth investment value (src/screens/Home.tsx lines 14-33) -/

/-- One asset's contribution to `stats.investmentValueEUR`: snapshots of the
asset sorted date-descending, and if a latest snapshot exists its price plus
the deposits dated strictly after it, else the signed deposit sum. -/
def homeAssetValue (deposits : List Deposit) (snapshots : List Snapshot)
    (a : Asset) : ℚ :=
  let snaps := (snapshots.filter (fun s => s.assetId = a.id)).insertionSort snapDateGE
  let assetDeposits := deposits.filter (fun d => d.assetId = a.id)
  let investedAmount := assetDeposits.foldl (fun acc d => acc + d.amount) 0
  match snaps.head? with
  | none => investedAmount
  | some latestSnap =>
      latestSnap.price +
        (assetDeposits.filter (fun d => latestSnap.date < d.date)).foldl
          (fun acc d => acc + d.amount) 0

/-- `stats.investmentValueEUR` (src/screens/Home.tsx lines 14-33). -/
def investmentValueEUR (assets : List Asset) (deposits : List Deposit)
    (snapshots : List Snapshot) : ℚ :=
  assets.foldl (fun acc a => acc + homeAssetValue deposits snapshots a) 0

/-! ### Health metrics -/

/-- `getBMICategory` (src/unnamed/part_004 lines 31-37): blank sentinel at
exactly 0, then half-open bands. -/
def getBMICategory (val : ℚ) : String :=
  if val = 0 then ""
  else if val < 18.5 then "Underweight"
  else if val < 25 then "Normal"
  else if val < 30 then "Overweight"
  else "Obese"

/-- `getBMICategory` (src/screens/Health.tsx lines 27-34): the input is
`parseFloat` of the formatted BMI string, modelled as `Option ℚ` with `none`
for `NaN`. -/
def getBMICategoryParsed (num : Option ℚ) : String :=
  match num with
  | none => ""
  | some v =>
      if v < 18.5 then "Underweight"
      else if v < 25 then "Normal"
      else if v < 30 then "Overweight"
      else "Obese"

/-- The weight logs of Home.tsx line 58: filter `type === 'Weight'`, sort by
date descending (stable). -/
def weightLogsSorted (logs : List HealthLog) : List HealthLog :=
  (logs.filter (fun l => l.type = HealthMetricType.Weight)).insertionSort logDateGE

/-- `weightTrend` (src/screens/Home.tsx lines 77-84): with at least two weight
logs, take the four most recent and divide the first-minus-last difference by
the number of entries actually in that window. -/
def weightTrend (logs : List HealthLog) : ℚ :=
  let wl := weightLogsSorted logs
  if 2 ≤ wl.length then
    let recent := wl.take 4
    if 1 < recent.length then
      match recent.head?, recent.getLast? with
      | some first, some oldest => (first.value - oldest.value) / (recent.length : ℚ)
      | _, _ => 0
    else 0
  else 0

/-- `projectedWeight4w` (src/screens/Home.tsx line 85):
`latestWeight ? latestWeight + (weightTrend * 4) : 0`, where a missing latest
log or a latest weight of `0` (falsy) yields `0`. -/
def projectedWeight4w (logs : List HealthLog) : ℚ :=
  match (weightLogsSorted logs).head? with
  | none => 0
  | some w => if w.value = 0 then 0 else w.value + weightTrend logs * 4

/-! ### Shared helper lemmas -/

/-- A `reduce((acc, x) => acc + g(x), z)` fold is `z` plus the sum of the image. -/
theorem foldl_add_eq {α : Type} (g : α → ℚ) (l : List α) : ∀ z : ℚ,
    l.foldl (fun acc a => acc + g a) z = z + (l.map g).sum := by
  induction l with
  | nil => intro z; simp
  | cons a t ih => intro z; simp [ih (z + g a), add_assoc]

/-- A successful `getLast?` returns a member of the list. -/
theorem mem_of_getLast?_eq {α : Type} {l : List α} {y : α}
    (h : l.getLast? = some y) : y ∈ l := by
  rcases List.getLast?_eq_some_iff.1 h with ⟨ys, rfl⟩
  simp

/-- In a list sorted by `r`, the last element is an `r`-upper bound. -/
theorem sorted_getLast?_max {α : Type} {r : α → α → Prop} {l : List α} {y : α}
    (hs : l.Sorted r) (hy : l.getLast? = some y) : ∀ x ∈ l, x = y ∨ r x y := by
  rcases List.getLast?_eq_some_iff.1 hy with ⟨ys, rfl⟩
  intro x hx
  rcases List.mem_append.1 hx with hx | hx
  · right
    exact (List.pairwise_append.1 hs).2.2 x hx y (by simp)
  · left
    simpa using hx

/-- In a list sorted by `r`, the head is an `r`-lower bound. -/
theorem sorted_head?_min {α : Type} {r : α → α → Prop} {l : List α} {y : α}
    (hs : l.Sorted r) (hy : l.head? = some y) : ∀ x ∈ l, x = y ∨ r y x := by
  cases l with
  | nil => simp at hy
  | cons a t =>
    obtain rfl : a = y := by simpa using hy
    intro x hx
    rcases List.mem_cons.1 hx with rfl | hx
    · left; rfl
    · right; exact (List.sorted_cons.1 hs).1 x hx

/-- Two members of a list that is pairwise distinct under a key function and
share the key are the same element. -/
theorem eq_of_mem_of_pairwise_ne {α β : Type} {f : α → β} :
    ∀ {l : List α} {x y : α}, l.Pairwise (fun a b => f a ≠ f b) →
      x ∈ l → y ∈ l → f x = f y → x = y := by
  intro l
  induction l with
  | nil => intro x y _ hx _ _; simp at hx
  | cons a t ih =>
    intro x y hp hx hy hf
    rcases List.pairwise_cons.1 hp with ⟨ha, hp2⟩
    rcases List.mem_cons.1 hx with hx1 | hx2
    · rcases List.mem_cons.1 hy with hy1 | hy2
      · rw [hx1, hy1]
      · rw [hx1]; exact absurd (hx1 ▸ hf) (ha y hy2)
    · rcases List.mem_cons.1 hy with hy1 | hy2
      · exact absurd (hy1 ▸ hf).symm (ha x hx2)
      · exact ih hp2 hx2 hy2 hf

/-- Mutually comparable snapshots have equal sort keys. -/
theorem snapKeyLE_antisymm_key {s t : Snapshot}
    (h1 : snapKeyLE s t) (h2 : snapKeyLE t s) : snapKey s = snapKey t := by
  unfold snapKeyLE at h1 h2
  unfold snapKey
  have h3 : s.date = t.date := by omega
  have h4 : s.createdAt.getD 0 = t.createdAt.getD 0 := by omega
  rw [h3, h4]

/-- The portfolio order is reflected in the date component. -/
theorem snapKeyLE_date {s t : Snapshot} (h : snapKeyLE s t) : s.date ≤ t.date := by
  unfold snapKeyLE at h
  omega

/-- Strict version of the portfolio snapshot order. -/
def snapKeyLT (s t : Snapshot) : Prop :=
  snapKeyLE s t ∧ snapKey s ≠ snapKey t

instance : IsAntisymm Snapshot snapKeyLT := by
  constructor
  intro a b hab hba
  exact absurd (snapKeyLE_antisymm_key hab.1 hba.1) hab.2

theorem sortSnapshots_sorted (l : List Snapshot) :
    (sortSnapshots l).Sorted snapKeyLE :=
  List.sorted_insertionSort _ l

theorem sortSnapshots_perm (l : List Snapshot) : (sortSnapshots l).Perm l :=
  List.perm_insertionSort _ l

/-- When the `(date, createdAt)` keys are pairwise distinct, the snapshot sort
is determined by the multiset of snapshots alone. -/
theorem sortSnapshots_eq_of_perm {l l2 : List Snapshot} (hp : l.Perm l2)
    (hk : l.Pairwise fun s t => snapKey s ≠ snapKey t) :
    sortSnapshots l = sortSnapshots l2 := by
  have hsymm : ∀ {x y : Snapshot}, snapKey x ≠ snapKey y → snapKey y ≠ snapKey x :=
    fun h he => h he.symm
  have hkA : (sortSnapshots l).Pairwise fun s t => snapKey s ≠ snapKey t :=
    (List.Perm.pairwise_iff hsymm (sortSnapshots_perm l)).2 hk
  have hkB : (sortSnapshots l2).Pairwise fun s t => snapKey s ≠ snapKey t :=
    (List.Perm.pairwise_iff hsymm (sortSnapshots_perm l2)).2
      ((List.Perm.pairwise_iff hsymm hp).1 hk)
  have hsA : (sortSnapshots l).Sorted snapKeyLT :=
    ((sortSnapshots_sorted l).and hkA).imp fun h => h
  have hsB : (sortSnapshots l2).Sorted snapKeyLT :=
    ((sortSnapshots_sorted l2).and hkB).imp fun h => h
  exact List.eq_of_perm_of_sorted
    ((sortSnapshots_perm l).trans (hp.trans (sortSnapshots_perm l2).symm)) hsA hsB

/-! ### C8: BMI category bands -/

/-- Reduction of the Health.tsx BMI classifier on a parsed value. -/
theorem getBMICategoryParsed_some (v : ℚ) :
    getBMICategoryParsed (some v) =
      if v < 18.5 then "Underweight" else if v < 25 then "Normal"
      else if v < 30 then "Overweight" else "Obese" := rfl

/-- C8 counterexample: the claim maps every value below 18.5 to Underweight,
but `getBMICategory` (src/unnamed/part_004) returns the blank sentinel at
exactly 0, which is below 18.5. -/
theorem C8_counterexample :
    (0 : ℚ) < 18.5 ∧ getBMICategory 0 = "" ∧ getBMICategory 0 ≠ "Underweight" := by
  refine ⟨by norm_num, ?_, ?_⟩ <;> with_unfolding_all decide

/-- C8 (amended): away from the 0 sentinel, `getBMICategory` realises the
half-open bands Underweight/Normal/Overweight/Obese with the claimed boundary
behaviour, and the Health.tsx variant realises them for every parsed value;
all five boundary evaluations of the claim hold. -/
theorem C8_bmiCategory_bands :
    (∀ v : ℚ, v ≠ 0 →
        ((v < 18.5 → getBMICategory v = "Underweight") ∧
         (18.5 ≤ v → v < 25 → getBMICategory v = "Normal") ∧
         (25 ≤ v → v < 30 → getBMICategory v = "Overweight") ∧
         (30 ≤ v → getBMICategory v = "Obese"))) ∧
    (∀ v : ℚ,
        ((v < 18.5 → getBMICategoryParsed (some v) = "Underweight") ∧
         (18.5 ≤ v → v < 25 → getBMICategoryParsed (some v) = "Normal") ∧
         (25 ≤ v → v < 30 → getBMICategoryParsed (some v) = "Overweight") ∧
         (30 ≤ v → getBMICategoryParsed (some v) = "Obese"))) ∧
    getBMICategory 18.5 = "Normal" ∧ getBMICategory 18.49 = "Underweight" ∧
    getBMICategory 25 = "Overweight" ∧ getBMICategory 29.99 = "Overweight" ∧
    getBMICategory 30 = "Obese" := by
  refine ⟨?_, ?_, ?_, ?_, ?_, ?_, ?_⟩
  · intro v hv
    unfold getBMICategory
    refine ⟨?_, ?_, ?_, ?_⟩
    · intro h1
      rw [if_neg hv, if_pos h1]
    · intro h1 h2
      rw [if_neg hv, if_neg (not_lt.2 h1), if_pos h2]
    · intro h1 h2
      rw [if_neg hv, if_neg (not_lt.2 ((by norm_num : (18.5:ℚ) ≤ 25).trans h1)),
        if_neg (not_lt.2 h1), if_pos h2]
    · intro h1
      rw [if_neg hv, if_neg (not_lt.2 ((by norm_num : (18.5:ℚ) ≤ 30).trans h1)),
        if_neg (not_lt.2 ((by norm_num : (25:ℚ) ≤ 30).trans h1)),
        if_neg (not_lt.2 h1)]
  · intro v
    simp only [getBMICategoryParsed_some]
    refine ⟨?_, ?_, ?_, ?_⟩
    · intro h1
      rw [if_pos h1]
    · intro h1 h2
      rw [if_neg (not_lt.2 h1), if_pos h2]
    · intro h1 h2
      rw [if_neg (not_lt.2 ((by norm_num : (18.5:ℚ) ≤ 25).trans h1)),
        if_neg (not_lt.2 h1), if_pos h2]
    · intro h1
      rw [if_neg (not_lt.2 ((by norm_num : (18.5:ℚ) ≤ 30).trans h1)),
        if_neg (not_lt.2 ((by norm_num : (25:ℚ) ≤ 30).trans h1)),
        if_neg (not_lt.2 h1)]
  all_goals with_unfolding_all decide

/-- C8 witness: the band theorem applied at the concrete value 18.49. -/
theorem C8_witness : getBMICategory 18.49 = "Underweight" :=
  (C8_bmiCategory_bands.1 18.49 (by norm_num)).1 (by norm_num)

/-! ### C5: running balances -/

/-- The emergency reduce is the sum of signed amounts. -/
theorem emergencyBalance_eq_sum (l : List EmergencyTransaction) :
    emergencyBalance l =
      (l.map fun t => if t.type = TxType.Add then t.amount else -t.amount).sum := by
  unfold emergencyBalance
  have hfun : (fun (acc : ℚ) (t : EmergencyTransaction) =>
        if t.type = TxType.Add then acc + t.amount else acc - t.amount) =
      fun acc t => acc + (if t.type = TxType.Add then t.amount else -t.amount) := by
    funext acc t
    by_cases h : t.type = TxType.Add
    · simp [h]
    · simp [h, sub_eq_add_neg]
  rw [hfun, foldl_add_eq, zero_add]

/-- The savings reduce is the sum of signed amounts. -/
theorem savingsRunningBalance_eq_sum (l : List SavingsTransaction) :
    savingsRunningBalance l =
      (l.map fun t => if t.type = TxType.Add then t.amount else -t.amount).sum := by
  unfold savingsRunningBalance
  have hfun : (fun (acc : ℚ) (t : SavingsTransaction) =>
        if t.type = TxType.Add then acc + t.amount else acc - t.amount) =
      fun acc t => acc + (if t.type = TxType.Add then t.amount else -t.amount) := by
    funext acc t
    by_cases h : t.type = TxType.Add
    · simp [h]
    · simp [h, sub_eq_add_neg]
  rw [hfun, foldl_add_eq, zero_add]

/-- Signed-amount sums split into Add minus Withdraw sums. -/
theorem signed_sum_split {α : Type} (ty : α → TxType) (amt : α → ℚ) (l : List α) :
    (l.map fun t => if ty t = TxType.Add then amt t else -amt t).sum =
      ((l.filter fun t => ty t = TxType.Add).map amt).sum -
        ((l.filter fun t => ty t = TxType.Withdraw).map amt).sum := by
  induction l with
  | nil => simp
  | cons a t ih =>
    cases hty : ty a with
    | Add =>
      simp [List.filter_cons, hty, ih]
      ring
    | Withdraw =>
      simp [List.filter_cons, hty, ih]
      ring

/-- C5: the running balance (used both for savings buckets and the emergency
fund) is `Σ(Add) − Σ(Withdraw)`, splits across any `take`/`drop` cut, and is
invariant under permutation; bucket balances are this fold over the
`bucketId`-filtered transactions. -/
theorem C5_runningBalance :
    (∀ l : List EmergencyTransaction,
        emergencyBalance l =
          ((l.filter fun t => t.type = TxType.Add).map fun t => t.amount).sum -
            ((l.filter fun t => t.type = TxType.Withdraw).map fun t => t.amount).sum) ∧
    (∀ (l : List EmergencyTransaction) (k : ℕ),
        emergencyBalance l = emergencyBalance (l.take k) + emergencyBalance (l.drop k)) ∧
    (∀ l l2 : List EmergencyTransaction, l.Perm l2 →
        emergencyBalance l = emergencyBalance l2) ∧
    (∀ l : List SavingsTransaction,
        savingsRunningBalance l =
          ((l.filter fun t => t.type = TxType.Add).map fun t => t.amount).sum -
            ((l.filter fun t => t.type = TxType.Withdraw).map fun t => t.amount).sum) ∧
    (∀ (l : List SavingsTransaction) (k : ℕ),
        savingsRunningBalance l =
          savingsRunningBalance (l.take k) + savingsRunningBalance (l.drop k)) ∧
    (∀ l l2 : List SavingsTransaction, l.Perm l2 →
        savingsRunningBalance l = savingsRunningBalance l2) ∧
    (∀ (txs : List SavingsTransaction) (b : String),
        bucketBalance txs b = savingsRunningBalance (txs.filter fun t => t.bucketId = b)) := by
  refine ⟨?_, ?_, ?_, ?_, ?_, ?_, ?_⟩
  · intro l
    rw [emergencyBalance_eq_sum]
    exact signed_sum_split (fun t => t.type) (fun t => t.amount) l
  · intro l k
    rw [emergencyBalance_eq_sum, emergencyBalance_eq_sum, emergencyBalance_eq_sum,
      ← List.sum_append, ← List.map_append, List.take_append_drop]
  · intro l l2 hp
    rw [emergencyBalance_eq_sum, emergencyBalance_eq_sum]
    exact (hp.map _).sum_eq
  · intro l
    rw [savingsRunningBalance_eq_sum]
    exact signed_sum_split (fun t => t.type) (fun t => t.amount) l
  · intro l k
    rw [savingsRunningBalance_eq_sum, savingsRunningBalance_eq_sum,
      savingsRunningBalance_eq_sum, ← List.sum_append, ← List.map_append,
      List.take_append_drop]
  · intro l l2 hp
    rw [savingsRunningBalance_eq_sum, savingsRunningBalance_eq_sum]
    exact (hp.map _).sum_eq
  · intro txs b
    rfl

/-- C5 witness: balance of the end-to-end emergency scenario
`[+500 Add, 200 Withdraw, +50 Add]`, evaluated through the theorem. -/
theorem C5_witness :
    emergencyBalance
        [⟨"e1", 500, 20240101, TxType.Add, none, none⟩,
         ⟨"e2", 200, 20240102, TxType.Withdraw, none, none⟩,
         ⟨"e3", 50, 20240103, TxType.Add, none, none⟩] =
      emergencyBalance
        [⟨"e2", 200, 20240102, TxType.Withdraw, none, none⟩,
         ⟨"e1", 500, 20240101, TxType.Add, none, none⟩,
         ⟨"e3", 50, 20240103, TxType.Add, none, none⟩] :=
  C5_runningBalance.2.2.1 _ _ (List.Perm.swap _ _ _)

/-! ### C3: snapshot upsert -/

/-- Upserting turns zero matches for the pair into one and otherwise keeps the
match count. -/
theorem pairCount_upsert (aid : String) (dt : Nat) (p : ℚ) (n : Nat) (f : String) :
    ∀ l, pairCount aid dt (upsertSnapshot aid dt p n f l) =
      if pairCount aid dt l = 0 then 1 else pairCount aid dt l := by
  intro l
  induction l with
  | nil => simp [upsertSnapshot, pairCount]
  | cons s rest ih =>
    by_cases h : s.assetId = aid ∧ s.date = dt
    · simp only [upsertSnapshot, if_pos h]
      unfold pairCount at *
      simp [List.filter_cons, h]
    · rw [show upsertSnapshot aid dt p n f (s :: rest) =
          s :: upsertSnapshot aid dt p n f rest from by
        rw [upsertSnapshot, if_neg h]]
      unfold pairCount at ih ⊢
      have hcons : ∀ tail : List Snapshot,
          (s :: tail).filter (fun x => x.assetId = aid ∧ x.date = dt) =
            tail.filter (fun x => x.assetId = aid ∧ x.date = dt) := by
        intro tail
        rw [List.filter_cons, if_neg (by simpa using h)]
      rw [hcons, hcons]
      exact ih

/-- With at most one existing match, the upserted list's matches are exactly
one snapshot carrying the written price and refreshed timestamp. -/
theorem upsert_filter_of_le_one (aid : String) (dt : Nat) (p : ℚ) (n : Nat) (f : String) :
    ∀ l, pairCount aid dt l ≤ 1 →
      ∃ j, (upsertSnapshot aid dt p n f l).filter
        (fun s => s.assetId = aid ∧ s.date = dt) = [⟨j, aid, dt, p, some n⟩] := by
  intro l
  induction l with
  | nil =>
    intro _
    exact ⟨f, by simp [upsertSnapshot]⟩
  | cons s rest ih =>
    intro h
    by_cases hm : s.assetId = aid ∧ s.date = dt
    · have hrest : rest.filter (fun s => s.assetId = aid ∧ s.date = dt) = [] := by
        unfold pairCount at h
        rw [List.filter_cons, if_pos (by simpa using hm)] at h
        simp only [List.length_cons] at h
        exact List.length_eq_zero.1 (by omega)
      refine ⟨s.id, ?_⟩
      rw [show upsertSnapshot aid dt p n f (s :: rest) =
          { s with price := p, createdAt := some n } :: rest from by
        rw [upsertSnapshot, if_pos hm]]
      rw [List.filter_cons, if_pos (by simpa using hm), hrest]
      simp [hm.1, hm.2]
    · have h2 : pairCount aid dt rest ≤ 1 := by
        unfold pairCount at h ⊢
        rw [List.filter_cons, if_neg (by simpa using hm)] at h
        exact h
      obtain ⟨j, hj⟩ := ih h2
      refine ⟨j, ?_⟩
      rw [show upsertSnapshot aid dt p n f (s :: rest) =
          s :: upsertSnapshot aid dt p n f rest from by
        rw [upsertSnapshot, if_neg hm]]
      rw [List.filter_cons, if_neg (by simpa using hm), hj]

/-- Upserting over an existing match replaces it in place. -/
theorem upsert_replace (aid : String) (dt : Nat) (p : ℚ) (n : Nat) (f : String) :
    ∀ (l1 : List Snapshot) (s : Snapshot) (l2 : List Snapshot), isPair aid dt s →
      (∀ t ∈ l1, ¬ isPair aid dt t) →
      upsertSnapshot aid dt p n f (l1 ++ s :: l2) =
        l1 ++ { s with price := p, createdAt := some n } :: l2 := by
  intro l1
  induction l1 with
  | nil =>
    intro s l2 hs _
    obtain ⟨h1, h2⟩ := hs
    simp [upsertSnapshot, h1, h2]
  | cons a t ih =>
    intro s l2 hs hnone
    have ha : ¬ (a.assetId = aid ∧ a.date = dt) := hnone a (by simp)
    have hrec := ih s l2 hs fun x hx => hnone x (by simp [hx])
    simp only [List.cons_append]
    rw [upsertSnapshot, if_neg ha, hrec]

/-- Upserting with no existing match appends one fresh snapshot. -/
theorem upsert_append (aid : String) (dt : Nat) (p : ℚ) (n : Nat) (f : String) :
    ∀ l, (∀ s ∈ l, ¬ isPair aid dt s) →
      upsertSnapshot aid dt p n f l = l ++ [⟨f, aid, dt, p, some n⟩] := by
  intro l
  induction l with
  | nil => intro _; rfl
  | cons s rest ih =>
    intro hnone
    have hs : ¬ (s.assetId = aid ∧ s.date = dt) := hnone s (by simp)
    have hrec := ih fun x hx => hnone x (by simp [hx])
    simp only [List.cons_append]
    rw [upsertSnapshot, if_neg hs, hrec]

/-- C3: starting from at most one snapshot for the `(assetId, date)` pair,
`handleUpsertSnapshot` replaces a match in place (same id, new price,
refreshed createdAt) or appends a fresh snapshot; the result has exactly one
match, and a second upsert on the same pair still leaves exactly one match,
carrying the second price. -/
theorem C3_upsertSnapshot (l : List Snapshot) (aid : String) (dt : Nat)
    (p1 p2 : ℚ) (n1 n2 : Nat) (f1 f2 : String)
    (h : pairCount aid dt l ≤ 1) :
    pairCount aid dt (upsertSnapshot aid dt p1 n1 f1 l) = 1 ∧
    (∀ l1 s l2, l = l1 ++ s :: l2 → isPair aid dt s → (∀ t ∈ l1, ¬ isPair aid dt t) →
        upsertSnapshot aid dt p1 n1 f1 l =
          l1 ++ { s with price := p1, createdAt := some n1 } :: l2) ∧
    ((∀ s ∈ l, ¬ isPair aid dt s) →
        upsertSnapshot aid dt p1 n1 f1 l = l ++ [⟨f1, aid, dt, p1, some n1⟩]) ∧
    pairCount aid dt (upsertSnapshot aid dt p2 n2 f2 (upsertSnapshot aid dt p1 n1 f1 l)) = 1 ∧
    (∃ j, (upsertSnapshot aid dt p2 n2 f2 (upsertSnapshot aid dt p1 n1 f1 l)).filter
        (fun s => s.assetId = aid ∧ s.date = dt) = [⟨j, aid, dt, p2, some n2⟩]) := by
  have hc1 : pairCount aid dt (upsertSnapshot aid dt p1 n1 f1 l) = 1 := by
    rw [pairCount_upsert]
    split
    · rfl
    · omega
  refine ⟨hc1, ?_, ?_, ?_, ?_⟩
  · intro l1 s l2 hl hs hnone
    rw [hl]
    exact upsert_replace aid dt p1 n1 f1 l1 s l2 hs hnone
  · intro hnone
    exact upsert_append aid dt p1 n1 f1 l hnone
  · rw [pairCount_upsert, hc1]
    simp
  · exact upsert_filter_of_le_one aid dt p2 n2 f2 _ (by omega)

/-- C3 witness: upserting the same `(assetId, date, price)` twice into an
empty snapshot list leaves exactly one snapshot for the pair. -/
theorem C3_witness :
    pairCount "a1" 20240110
      (upsertSnapshot "a1" 20240110 100 2 "i2"
        (upsertSnapshot "a1" 20240110 100 1 "i1" [])) = 1 :=
  (C3_upsertSnapshot [] "a1" 20240110 100 100 1 2 "i1" "i2"
    (by with_unfolding_all decide)).2.2.2.1

/-! ### C1 and C7: valuation fallback and percent change -/

/-- Projection of the `hasPrice` field. -/
theorem assetValuation_hasPrice (deposits : List Deposit) (snapshots : List Snapshot)
    (a : Asset) :
    (assetValuation deposits snapshots a).hasPrice =
      decide (0 < (sortSnapshots (snapshots.filter fun s => s.assetId = a.id)).length) := rfl

/-- Projection of the `startPrice` field. -/
theorem assetValuation_startPrice (deposits : List Deposit) (snapshots : List Snapshot)
    (a : Asset) :
    (assetValuation deposits snapshots a).startPrice =
      (match (sortSnapshots (snapshots.filter fun s => s.assetId = a.id)).head? with
        | some s => s.price
        | none => 0) := rfl

/-- Projection of the `latestPrice` field. -/
theorem assetValuation_latestPrice (deposits : List Deposit) (snapshots : List Snapshot)
    (a : Asset) :
    (assetValuation deposits snapshots a).latestPrice =
      (match (sortSnapshots (snapshots.filter fun s => s.assetId = a.id)).getLast? with
        | some s => s.price
        | none => 0) := rfl

/-- Projection of the `investedAmount` field. -/
theorem assetValuation_investedAmount (deposits : List Deposit)
    (snapshots : List Snapshot) (a : Asset) :
    (assetValuation deposits snapshots a).investedAmount =
      (deposits.filter fun d => d.assetId = a.id).foldl (fun acc d => acc + d.amount) 0 := rfl

/-- Projection of the `currentValue` field. -/
theorem assetValuation_currentValue (deposits : List Deposit) (snapshots : List Snapshot)
    (a : Asset) :
    (assetValuation deposits snapshots a).currentValue =
      if 0 < (sortSnapshots (snapshots.filter fun s => s.assetId = a.id)).length
      then (assetValuation deposits snapshots a).latestPrice
      else (assetValuation deposits snapshots a).investedAmount := rfl

/-- Projection of the `priceChangePercent` field. -/
theorem assetValuation_priceChangePercent (deposits : List Deposit)
    (snapshots : List Snapshot) (a : Asset) :
    (assetValuation deposits snapshots a).priceChangePercent =
      if 0 < (assetValuation deposits snapshots a).investedAmount
      then ((assetValuation deposits snapshots a).currentValue -
          (assetValuation deposits snapshots a).investedAmount) /
          (assetValuation deposits snapshots a).investedAmount * 100
      else 0 := rfl

/-- C1: `hasPrice` holds exactly when the asset owns at least one snapshot;
with a price the current value is the latest snapshot price regardless of the
invested amount, and without one it is the invested amount, which is the
signed sum of the asset's deposits. -/
theorem C1_valuation_fallback (a : Asset) (deposits : List Deposit)
    (snapshots : List Snapshot) :
    ((assetValuation deposits snapshots a).hasPrice = true ↔
        ∃ s ∈ snapshots, s.assetId = a.id) ∧
    ((assetValuation deposits snapshots a).hasPrice = true →
        (assetValuation deposits snapshots a).currentValue =
          (assetValuation deposits snapshots a).latestPrice) ∧
    ((assetValuation deposits snapshots a).hasPrice = false →
        (assetValuation deposits snapshots a).currentValue =
          (assetValuation deposits snapshots a).investedAmount) ∧
    (assetValuation deposits snapshots a).investedAmount =
      ((deposits.filter fun d => d.assetId = a.id).map fun d => d.amount).sum := by
  have hlen : (sortSnapshots (snapshots.filter fun s => s.assetId = a.id)).length =
      (snapshots.filter fun s => s.assetId = a.id).length :=
    (sortSnapshots_perm _).length_eq
  refine ⟨?_, ?_, ?_, ?_⟩
  · rw [assetValuation_hasPrice, decide_eq_true_eq, hlen, List.length_pos]
    constructor
    · intro hne
      rcases List.exists_mem_of_ne_nil _ hne with ⟨s, hs⟩
      rcases List.mem_filter.1 hs with ⟨hmem, hprop⟩
      exact ⟨s, hmem, by simpa using hprop⟩
    · rintro ⟨s, hmem, hprop⟩ hnil
      have : s ∈ (snapshots.filter fun s => s.assetId = a.id) :=
        List.mem_filter.2 ⟨hmem, by simpa using hprop⟩
      rw [hnil] at this
      simp at this
  · intro h
    rw [assetValuation_hasPrice, decide_eq_true_eq] at h
    rw [assetValuation_currentValue, if_pos h]
  · intro h
    rw [assetValuation_hasPrice, decide_eq_false_iff_not] at h
    rw [assetValuation_currentValue, if_neg h]
  · rw [assetValuation_investedAmount, foldl_add_eq, zero_add]

/-- Concrete asset of the spec's end-to-end valuation scenario. -/
def scenarioAsset : Asset := ⟨"A", "Asset A", AssetType.ETF, none⟩

/-- Concrete deposits of the spec's end-to-end valuation scenario. -/
def scenarioDeposits : List Deposit := [⟨"d1", "A", 20240105, 1000, none⟩]

/-- Concrete snapshots of the spec's end-to-end valuation scenario. -/
def scenarioSnapshots : List Snapshot :=
  [⟨"s1", "A", 20240110, 1050, some 1⟩, ⟨"s2", "A", 20240201, 1100, some 2⟩]

/-- C1 witness: the fallback theorem applied to the scenario asset, whose
`hasPrice` is true. -/
theorem C1_witness :
    (assetValuation scenarioDeposits scenarioSnapshots scenarioAsset).currentValue =
      (assetValuation scenarioDeposits scenarioSnapshots scenarioAsset).latestPrice :=
  (C1_valuation_fallback scenarioAsset scenarioDeposits scenarioSnapshots).2.1
    (by with_unfolding_all decide)

set_option maxRecDepth 16000

/-- C7: the percent change is `(currentValue − investedAmount) / investedAmount
× 100` when the invested amount is positive and `0` otherwise, and on the
spec's end-to-end scenario all derived fields take the claimed values, with a
percent change of exactly 10. -/
theorem C7_priceChangePercent :
    (∀ (a : Asset) (deposits : List Deposit) (snapshots : List Snapshot),
        0 < (assetValuation deposits snapshots a).investedAmount →
          (assetValuation deposits snapshots a).priceChangePercent =
            ((assetValuation deposits snapshots a).currentValue -
                (assetValuation deposits snapshots a).investedAmount) /
              (assetValuation deposits snapshots a).investedAmount * 100) ∧
    (∀ (a : Asset) (deposits : List Deposit) (snapshots : List Snapshot),
        ¬ 0 < (assetValuation deposits snapshots a).investedAmount →
          (assetValuation deposits snapshots a).priceChangePercent = 0) ∧
    (assetValuation scenarioDeposits scenarioSnapshots scenarioAsset).investedAmount = 1000 ∧
    (assetValuation scenarioDeposits scenarioSnapshots scenarioAsset).hasPrice = true ∧
    (assetValuation scenarioDeposits scenarioSnapshots scenarioAsset).startPrice = 1050 ∧
    (assetValuation scenarioDeposits scenarioSnapshots scenarioAsset).latestPrice = 1100 ∧
    (assetValuation scenarioDeposits scenarioSnapshots scenarioAsset).currentValue = 1100 ∧
    (assetValuation scenarioDeposits scenarioSnapshots scenarioAsset).priceChangePercent = 10 := by
  refine ⟨?_, ?_, ?_, ?_, ?_, ?_, ?_, ?_⟩
  · intro a deposits snapshots h
    rw [assetValuation_priceChangePercent, if_pos h]
  · intro a deposits snapshots h
    rw [assetValuation_priceChangePercent, if_neg h]
  all_goals with_unfolding_all decide

/-- C7 witness: the percent-change formula applied to the scenario asset, whose
invested amount is positive. -/
theorem C7_witness :
    (assetValuation scenarioDeposits scenarioSnapshots scenarioAsset).priceChangePercent =
      ((assetValuation scenarioDeposits scenarioSnapshots scenarioAsset).currentValue -
          (assetValuation scenarioDeposits scenarioSnapshots scenarioAsset).investedAmount) /
        (assetValuation scenarioDeposits scenarioSnapshots scenarioAsset).investedAmount * 100 :=
  C7_priceChangePercent.1 scenarioAsset scenarioDeposits scenarioSnapshots
    (by with_unfolding_all decide)

/-! ### C4: snapshot ordering and permutation invariance -/

/-- C4 counterexample asset. -/
def c4Asset : Asset := ⟨"A4", "Asset", AssetType.Stock, none⟩

/-- C4 counterexample snapshot: same date and missing createdAt as its twin. -/
def c4s1 : Snapshot := ⟨"s1", "A4", 20240110, 100, none⟩

/-- C4 counterexample snapshot: ties with `c4s1` on the whole sort key. -/
def c4s2 : Snapshot := ⟨"s2", "A4", 20240110, 200, none⟩

/-- C4 counterexample: two snapshots sharing date and (missing) createdAt tie
on the whole sort key, and the stable sort then preserves input order, so
`latestPrice` differs across a permutation of the input list. -/
theorem C4_counterexample :
    ([c4s1, c4s2] : List Snapshot).Perm [c4s2, c4s1] ∧
    (assetValuation [] [c4s1, c4s2] c4Asset).latestPrice ≠
      (assetValuation [] [c4s2, c4s1] c4Asset).latestPrice := by
  constructor
  · exact List.Perm.swap c4s2 c4s1 []
  · with_unfolding_all decide

/-- C4 (amended): the `(date, createdAt || 0)` comparator is total and
transitive (a total preorder), and whenever no two snapshots of the list share
the whole sort key the sorted list — and with it the `startPrice` and
`latestPrice` of the valuation — is invariant under any permutation of the
input snapshot list. -/
theorem C4_snapshot_order :
    (∀ s t : Snapshot, snapKeyLE s t ∨ snapKeyLE t s) ∧
    (∀ s t u : Snapshot, snapKeyLE s t → snapKeyLE t u → snapKeyLE s u) ∧
    (∀ l l2 : List Snapshot, l.Perm l2 →
        (l.Pairwise fun s t => snapKey s ≠ snapKey t) →
        sortSnapshots l = sortSnapshots l2) ∧
    (∀ (a : Asset) (deposits : List Deposit) (snaps snaps2 : List Snapshot),
        snaps.Perm snaps2 →
        ((snaps.filter fun s => s.assetId = a.id).Pairwise
          fun s t => snapKey s ≠ snapKey t) →
        (assetValuation deposits snaps a).startPrice =
            (assetValuation deposits snaps2 a).startPrice ∧
          (assetValuation deposits snaps a).latestPrice =
            (assetValuation deposits snaps2 a).latestPrice) := by
  refine ⟨?_, ?_, ?_, ?_⟩
  · intro s t
    exact total_of snapKeyLE s t
  · intro s t u hst htu
    exact Trans.trans hst htu
  · intro l l2 hp hk
    exact sortSnapshots_eq_of_perm hp hk
  · intro a deposits snaps snaps2 hp hk
    have hsort : sortSnapshots (snaps.filter fun s => s.assetId = a.id) =
        sortSnapshots (snaps2.filter fun s => s.assetId = a.id) :=
      sortSnapshots_eq_of_perm (hp.filter _) hk
    constructor
    · rw [assetValuation_startPrice, assetValuation_startPrice, hsort]
    · rw [assetValuation_latestPrice, assetValuation_latestPrice, hsort]

/-- C4 witness snapshot with a distinct date. -/
def c4t1 : Snapshot := ⟨"t1", "A4", 20240110, 100, none⟩

/-- C4 witness snapshot with a distinct date. -/
def c4t2 : Snapshot := ⟨"t2", "A4", 20240111, 200, none⟩

/-- C4 witness: with distinct dates the sorted list is permutation-invariant,
via the order theorem at a concrete two-snapshot list. -/
theorem C4_witness : sortSnapshots [c4t1, c4t2] = sortSnapshots [c4t2, c4t1] :=
  C4_snapshot_order.2.2.1 [c4t1, c4t2] [c4t2, c4t1] (List.Perm.swap c4t2 c4t1 [])
    (by with_unfolding_all decide)

/-! ### C10: Home screen net-worth investment value -/

/-- Reduction of `homeAssetValue` when the date-descending sort has a head. -/
theorem homeAssetValue_eq_of_head? {deposits : List Deposit}
    {snapshots : List Snapshot} {a : Asset} {s0 : Snapshot}
    (hs0 : ((snapshots.filter fun s => s.assetId = a.id).insertionSort
      snapDateGE).head? = some s0) :
    homeAssetValue deposits snapshots a =
      s0.price + ((deposits.filter fun d => d.assetId = a.id).filter
          fun d => s0.date < d.date).foldl (fun acc d => acc + d.amount) 0 := by
  unfold homeAssetValue
  simp only [hs0]

/-- C10: an asset with no snapshots contributes its signed deposit sum to
`investmentValueEUR`; an asset with snapshots contributes the price of a
latest-dated snapshot plus the deposits dated strictly after it; the total is
the sum of the per-asset contributions. -/
theorem C10_home_investment_value :
    (∀ (deposits : List Deposit) (snapshots : List Snapshot) (a : Asset),
        (snapshots.filter fun s => s.assetId = a.id) = [] →
          homeAssetValue deposits snapshots a =
            ((deposits.filter fun d => d.assetId = a.id).map fun d => d.amount).sum) ∧
    (∀ (deposits : List Deposit) (snapshots : List Snapshot) (a : Asset),
        (snapshots.filter fun s => s.assetId = a.id) ≠ [] →
          ∃ s0, s0 ∈ snapshots ∧ s0.assetId = a.id ∧
            (∀ t ∈ snapshots, t.assetId = a.id → t.date ≤ s0.date) ∧
            homeAssetValue deposits snapshots a =
              s0.price +
                ((deposits.filter fun d => d.assetId = a.id ∧ s0.date < d.date).map
                  fun d => d.amount).sum) ∧
    (∀ (assets : List Asset) (deposits : List Deposit) (snapshots : List Snapshot),
        investmentValueEUR assets deposits snapshots =
          (assets.map fun a => homeAssetValue deposits snapshots a).sum) := by
  refine ⟨?_, ?_, ?_⟩
  · intro deposits snapshots a h
    unfold homeAssetValue
    rw [h]
    simp [List.insertionSort, foldl_add_eq]
  · intro deposits snapshots a h
    set L := snapshots.filter fun s => s.assetId = a.id with hL
    set S := L.insertionSort snapDateGE with hS
    have hSne : S ≠ [] := by
      intro hnil
      apply h
      have := (List.perm_insertionSort snapDateGE L).length_eq
      rw [← hS, hnil] at this
      exact List.length_eq_zero.1 this.symm
    obtain ⟨s0, hs0⟩ : ∃ s0, S.head? = some s0 := by
      cases hScases : S with
      | nil => exact absurd hScases hSne
      | cons x xs => exact ⟨x, rfl⟩
    have hs0S : s0 ∈ S := List.mem_of_mem_head? hs0
    have hs0L : s0 ∈ L := (List.mem_insertionSort snapDateGE).1 hs0S
    have hs0mem : s0 ∈ snapshots := (List.mem_filter.1 hs0L).1
    have hs0aid : s0.assetId = a.id := by
      have := (List.mem_filter.1 hs0L).2
      simpa using this
    refine ⟨s0, hs0mem, hs0aid, ?_, ?_⟩
    · intro t ht haid
      have htL : t ∈ L := List.mem_filter.2 ⟨ht, by simpa using haid⟩
      have htS : t ∈ S := (List.mem_insertionSort snapDateGE).2 htL
      have hmin := sorted_head?_min (List.sorted_insertionSort snapDateGE L) hs0 t htS
      rcases hmin with rfl | hge
      · exact le_refl _
      · exact hge
    · have hs0' : ((snapshots.filter fun s => s.assetId = a.id).insertionSort
          snapDateGE).head? = some s0 := by
        rw [← hL, ← hS]
        exact hs0
      rw [homeAssetValue_eq_of_head? hs0']
      have hfil : (deposits.filter fun d => d.assetId = a.id).filter
          (fun d => s0.date < d.date) =
          deposits.filter fun d => d.assetId = a.id ∧ s0.date < d.date := by
        rw [List.filter_filter]
        apply List.filter_congr
        intro x _
        simp [Bool.and_comm]
      rw [hfil, foldl_add_eq, zero_add]
  · intro assets deposits snapshots
    unfold investmentValueEUR
    rw [foldl_add_eq, zero_add]

/-- C10 witness: the characterisation applied to the concrete scenario data,
where the asset has snapshots. -/
theorem C10_witness :
    ∃ s0, s0 ∈ scenarioSnapshots ∧ s0.assetId = scenarioAsset.id ∧
      (∀ t ∈ scenarioSnapshots, t.assetId = scenarioAsset.id → t.date ≤ s0.date) ∧
      homeAssetValue scenarioDeposits scenarioSnapshots scenarioAsset =
        s0.price +
          ((scenarioDeposits.filter fun d =>
              d.assetId = scenarioAsset.id ∧ s0.date < d.date).map
            fun d => d.amount).sum :=
  C10_home_investment_value.2.1 scenarioDeposits scenarioSnapshots scenarioAsset
    (by with_unfolding_all decide)

/-! ### C9: weight trend and projection -/

/-- C9 counterexample weight log (most recent). -/
def c9log1 : HealthLog := ⟨"w1", 20240110, HealthMetricType.Weight, 82⟩

/-- C9 counterexample weight log (older). -/
def c9log2 : HealthLog := ⟨"w2", 20240103, HealthMetricType.Weight, 80⟩

/-- C9 counterexample: with only two weight logs the window holds two entries,
and the code divides the difference by the window's entry count (2), not by
`windowSize = 4` as claimed: the computed trend is 1, while the claimed
formula gives `(82 − 80)/4`. -/
theorem C9_counterexample :
    2 ≤ (weightLogsSorted [c9log1, c9log2]).length ∧
    weightTrend [c9log1, c9log2] = 1 ∧
    weightTrend [c9log1, c9log2] ≠ (c9log1.value - c9log2.value) / 4 := by
  have h1 : weightTrend [c9log1, c9log2] = 1 := by with_unfolding_all decide
  refine ⟨by decide, h1, ?_⟩
  rw [h1]
  show (1 : ℚ) ≠ ((82 : ℚ) - 80) / 4
  norm_num

/-- C9 (amended): with at least two weight logs the trend is the difference
between the most recent and the oldest log of the four-entry window divided by
the number of entries actually in the window (`min 4 n`, which is 4 only once
four logs exist); with fewer than two logs it is 0; and when the latest weight
exists and is nonzero the projection is `latest + trend × 4`. -/
theorem C9_weightTrend :
    (∀ (logs : List HealthLog) (w0 wk : HealthLog),
        2 ≤ (weightLogsSorted logs).length →
        ((weightLogsSorted logs).take 4).head? = some w0 →
        ((weightLogsSorted logs).take 4).getLast? = some wk →
          weightTrend logs =
            (w0.value - wk.value) / (((weightLogsSorted logs).take 4).length : ℚ)) ∧
    (∀ logs : List HealthLog, (weightLogsSorted logs).length < 2 →
        weightTrend logs = 0) ∧
    (∀ (logs : List HealthLog) (w0 : HealthLog),
        (weightLogsSorted logs).head? = some w0 → w0.value ≠ 0 →
          projectedWeight4w logs = w0.value + weightTrend logs * 4) := by
  refine ⟨?_, ?_, ?_⟩
  · intro logs w0 wk h2 hhead hlast
    unfold weightTrend
    rw [if_pos h2]
    have hlen : 1 < ((weightLogsSorted logs).take 4).length := by
      rw [List.length_take]
      omega
    rw [if_pos hlen]
    simp only [hhead, hlast]
  · intro logs h
    unfold weightTrend
    rw [if_neg (by omega)]
  · intro logs w0 hhead hval
    unfold projectedWeight4w
    rw [hhead]
    simp only [if_neg hval]

/-- C9 witness: the amended trend formula applied to the concrete two-log
list, whose window holds two entries. -/
theorem C9_witness :
    weightTrend [c9log1, c9log2] =
      (c9log1.value - c9log2.value) /
        (((weightLogsSorted [c9log1, c9log2]).take 4).length : ℚ) :=
  C9_weightTrend.1 [c9log1, c9log2] c9log1 c9log2
    (by decide) (by decide) (by decide)

/-! ### C2: end-of-month replay vs live valuation -/

/-- Reduction of `eomAssetValue` when a qualifying snapshot exists. -/
theorem eomAssetValue_eq_of_getLast? {deposits : List Deposit}
    {snapshots : List Snapshot} {bound : Nat} {a : Asset} {s0 : Snapshot}
    (h : ((snapshots.filter fun s => s.assetId = a.id ∧ s.date ≤ bound).insertionSort
      snapDateLE).getLast? = some s0) :
    eomAssetValue deposits snapshots bound a = s0.price := by
  unfold eomAssetValue
  simp only [h]

/-- Reduction of `eomAssetValue` when no snapshot qualifies. -/
theorem eomAssetValue_eq_of_nil {deposits : List Deposit}
    {snapshots : List Snapshot} {bound : Nat} {a : Asset}
    (h : (snapshots.filter fun s => s.assetId = a.id ∧ s.date ≤ bound) = []) :
    eomAssetValue deposits snapshots bound a =
      (deposits.filter fun d => d.assetId = a.id ∧ d.date ≤ bound).foldl
        (fun acc d => acc + d.amount) 0 := by
  unfold eomAssetValue
  rw [h]
  rfl

/-- Per-asset agreement of the end-of-month replay with the live valuation on
the restricted dataset, given per-asset distinct snapshot dates. -/
theorem eomAssetValue_eq (deposits : List Deposit) (snapshots : List Snapshot)
    (hd : snapshots.Pairwise fun s t => s.assetId = t.assetId → s.date ≠ t.date)
    (bound : Nat) (a : Asset) :
    eomAssetValue deposits snapshots bound a =
      (assetValuation (deposits.filter fun d => d.date ≤ bound)
        (snapshots.filter fun s => s.date ≤ bound) a).currentValue := by
  have hsnap : (snapshots.filter fun s => s.date ≤ bound).filter
      (fun s => s.assetId = a.id) =
      snapshots.filter fun s => s.assetId = a.id ∧ s.date ≤ bound := by
    rw [List.filter_filter]
    apply List.filter_congr
    intro x _
    simp [Bool.and_comm]
  have hdep : (deposits.filter fun d => d.date ≤ bound).filter
      (fun d => d.assetId = a.id) =
      deposits.filter fun d => d.assetId = a.id ∧ d.date ≤ bound := by
    rw [List.filter_filter]
    apply List.filter_congr
    intro x _
    simp [Bool.and_comm]
  by_cases hL : (snapshots.filter fun s => s.assetId = a.id ∧ s.date ≤ bound) = []
  · rw [eomAssetValue_eq_of_nil hL, assetValuation_currentValue, hsnap, hL]
    rw [if_neg (by simp [sortSnapshots, List.insertionSort])]
    rw [assetValuation_investedAmount, hdep]
  · have hpos : 0 < (sortSnapshots
        (snapshots.filter fun s => s.assetId = a.id ∧ s.date ≤ bound)).length := by
      rw [(sortSnapshots_perm _).length_eq]
      exact List.length_pos.2 hL
    have hrelne : (snapshots.filter fun s => s.assetId = a.id ∧ s.date ≤ bound).insertionSort
        snapDateLE ≠ [] := by
      intro hnil
      apply hL
      have hlen := (List.perm_insertionSort snapDateLE
        (snapshots.filter fun s => s.assetId = a.id ∧ s.date ≤ bound)).length_eq
      rw [hnil] at hlen
      exact List.length_eq_zero.1 hlen.symm
    have hsortne : sortSnapshots
        (snapshots.filter fun s => s.assetId = a.id ∧ s.date ≤ bound) ≠ [] :=
      List.ne_nil_of_length_pos hpos
    obtain ⟨y1, hy1⟩ : ∃ y, ((snapshots.filter fun s =>
        s.assetId = a.id ∧ s.date ≤ bound).insertionSort snapDateLE).getLast? = some y :=
      ⟨_, List.getLast?_eq_getLast _ hrelne⟩
    obtain ⟨y2, hy2⟩ : ∃ y, (sortSnapshots (snapshots.filter fun s =>
        s.assetId = a.id ∧ s.date ≤ bound)).getLast? = some y :=
      ⟨_, List.getLast?_eq_getLast _ hsortne⟩
    rw [eomAssetValue_eq_of_getLast? hy1, assetValuation_currentValue, hsnap,
      if_pos hpos, assetValuation_latestPrice, hsnap, hy2]
    suffices hyy : y1 = y2 by rw [hyy]
    have hdL : (snapshots.filter fun s =>
        s.assetId = a.id ∧ s.date ≤ bound).Pairwise fun s t => s.date ≠ t.date := by
      have hP := List.Pairwise.sublist
        (List.filter_sublist (p := fun s => decide (s.assetId = a.id ∧ s.date ≤ bound))
          snapshots) hd
      refine List.Pairwise.imp_of_mem ?_ hP
      intro x y hx hy hR
      have hxa : x.assetId = a.id := (by simpa using (List.mem_filter.1 hx).2 : _ ∧ _).1
      have hya : y.assetId = a.id := (by simpa using (List.mem_filter.1 hy).2 : _ ∧ _).1
      exact hR (hxa.trans hya.symm)
    have hm1 : y1 ∈ snapshots.filter fun s => s.assetId = a.id ∧ s.date ≤ bound :=
      (List.mem_insertionSort snapDateLE).1 (mem_of_getLast?_eq hy1)
    have hm2 : y2 ∈ snapshots.filter fun s => s.assetId = a.id ∧ s.date ≤ bound :=
      (List.mem_insertionSort snapKeyLE).1 (mem_of_getLast?_eq hy2)
    have hmax1 : ∀ x ∈ snapshots.filter fun s => s.assetId = a.id ∧ s.date ≤ bound,
        x.date ≤ y1.date := by
      intro x hx
      rcases sorted_getLast?_max (List.sorted_insertionSort snapDateLE _) hy1 x
          ((List.mem_insertionSort snapDateLE).2 hx) with heq | hle
      · rw [heq]
      · exact hle
    have hmax2 : ∀ x ∈ snapshots.filter fun s => s.assetId = a.id ∧ s.date ≤ bound,
        x.date ≤ y2.date := by
      intro x hx
      rcases sorted_getLast?_max (sortSnapshots_sorted _) hy2 x
          ((List.mem_insertionSort snapKeyLE).2 hx) with heq | hle
      · rw [heq]
      · exact snapKeyLE_date hle
    exact eq_of_mem_of_pairwise_ne (f := fun s : Snapshot => s.date) hdL hm1 hm2
      (le_antisymm (hmax2 y1 hm1) (hmax1 y2 hm2))

/-- C2 (amended): when no asset has two snapshots on the same date, the
end-of-month replay equals the live engine's total current value on the
dataset restricted to the month's zero-padded end-of-month date bound, for
every dataset and every (year, month). -/
theorem C2_eom_replay (assets : List Asset) (deposits : List Deposit)
    (snapshots : List Snapshot)
    (hd : snapshots.Pairwise fun s t => s.assetId = t.assetId → s.date ≠ t.date)
    (year month0 : Nat) :
    endOfMonthValue assets deposits snapshots (endOfMonthDate year month0) =
      totalCurrentValue assets
        (deposits.filter fun d => d.date ≤ endOfMonthDate year month0)
        (snapshots.filter fun s => s.date ≤ endOfMonthDate year month0) := by
  unfold endOfMonthValue totalCurrentValue
  rw [foldl_add_eq, foldl_add_eq, zero_add, zero_add]
  congr 1
  apply List.map_congr_left
  intro a _
  exact eomAssetValue_eq deposits snapshots hd (endOfMonthDate year month0) a

/-- C2 counterexample asset. -/
def c2Asset : Asset := ⟨"A2", "A2", AssetType.ETF, none⟩

/-- C2 counterexample snapshot: later insertion (`createdAt = 5`), listed
first. -/
def c2s1 : Snapshot := ⟨"s1", "A2", 20240110, 100, some 5⟩

/-- C2 counterexample snapshot: earlier insertion (`createdAt = 3`), same
date, listed second. -/
def c2s2 : Snapshot := ⟨"s2", "A2", 20240110, 200, some 3⟩

/-- C2 counterexample: with two same-date snapshots the end-of-month replay
(stable date-only sort, last wins by input order) reports 200, while the live
engine on the restricted dataset (createdAt tie-break) reports 100. -/
theorem C2_counterexample :
    endOfMonthValue [c2Asset] [] [c2s1, c2s2] (endOfMonthDate 2024 0) ≠
      totalCurrentValue [c2Asset]
        (([] : List Deposit).filter fun d => d.date ≤ endOfMonthDate 2024 0)
        ([c2s1, c2s2].filter fun s => s.date ≤ endOfMonthDate 2024 0) := by
  have h1 : endOfMonthValue [c2Asset] [] [c2s1, c2s2] (endOfMonthDate 2024 0) = 200 := by
    with_unfolding_all decide
  have h2 : totalCurrentValue [c2Asset]
      (([] : List Deposit).filter fun d => d.date ≤ endOfMonthDate 2024 0)
      ([c2s1, c2s2].filter fun s => s.date ≤ endOfMonthDate 2024 0) = 100 := by
    with_unfolding_all decide
  rw [h1, h2]
  norm_num

/-- C2 witness asset. -/
def c2wAsset : Asset := ⟨"AW", "AW", AssetType.Crypto, none⟩

/-- C2 witness deposits. -/
def c2wDeposits : List Deposit := [⟨"dw", "AW", 20240105, 500, none⟩]

/-- C2 witness snapshots with distinct dates. -/
def c2wSnapshots : List Snapshot :=
  [⟨"sw1", "AW", 20240110, 600, some 1⟩, ⟨"sw2", "AW", 20240120, 650, some 2⟩]

/-- C2 witness: the replay theorem applied to a concrete distinct-date
dataset at January 2024. -/
theorem C2_witness :
    endOfMonthValue [c2wAsset] c2wDeposits c2wSnapshots (endOfMonthDate 2024 0) =
      totalCurrentValue [c2wAsset]
        (c2wDeposits.filter fun d => d.date ≤ endOfMonthDate 2024 0)
        (c2wSnapshots.filter fun s => s.date ≤ endOfMonthDate 2024 0) :=
  C2_eom_replay [c2wAsset] c2wDeposits c2wSnapshots (by decide) 2024 0

/-! ### C6: asset deletion cascade -/

/-- C6 counterexample data: one asset with one deposit. -/
def c6Deposit : Deposit := ⟨"d6", "A6", 20240105, 50, none⟩

/-- C6 counterexample settings. -/
def c6Settings : Settings := ⟨0, 5, 0, [], 0, none, none, none, none⟩

/-- C6 counterexample dataset. -/
def c6Data : AppData :=
  { assets := [⟨"A6", "A6", AssetType.ETF, none⟩]
    trades := []
    deposits := [c6Deposit]
    snapshots := []
    expenses := []
    savingsBuckets := []
    savingsTransactions := []
    emergencyTransactions := []
    healthLogs := []
    settings := c6Settings }

/-- C6 counterexample: deleting the asset through the Investments.tsx
`handleDeleteAsset` leaves its deposit in place, so deletion does not remove
all Deposits whose `assetId` matches the deleted asset. -/
theorem C6_counterexample :
    c6Deposit ∈ (handleDeleteAsset c6Data "A6").deposits ∧
    c6Deposit.assetId = "A6" := by
  constructor
  · show c6Deposit ∈ c6Data.deposits
    decide
  · rfl

/-- C6 (amended): part_002's `confirmDeleteAsset` removes exactly the asset
and the snapshots, trades and deposits whose `assetId` matches, leaving every
other record and collection untouched; the Investments.tsx `handleDeleteAsset`
removes only the asset, its snapshots and its trades, leaving the deposits
collection (and all others) unchanged. -/
theorem C6_deleteAsset (d : AppData) (aid : String) :
    ((∀ a : Asset, a ∈ (confirmDeleteAsset d aid).assets ↔ a ∈ d.assets ∧ a.id ≠ aid) ∧
     (∀ s : Snapshot, s ∈ (confirmDeleteAsset d aid).snapshots ↔
        s ∈ d.snapshots ∧ s.assetId ≠ aid) ∧
     (∀ t : Trade, t ∈ (confirmDeleteAsset d aid).trades ↔
        t ∈ d.trades ∧ t.assetId ≠ aid) ∧
     (∀ dep : Deposit, dep ∈ (confirmDeleteAsset d aid).deposits ↔
        dep ∈ d.deposits ∧ dep.assetId ≠ aid) ∧
     (confirmDeleteAsset d aid).expenses = d.expenses ∧
     (confirmDeleteAsset d aid).savingsBuckets = d.savingsBuckets ∧
     (confirmDeleteAsset d aid).savingsTransactions = d.savingsTransactions ∧
     (confirmDeleteAsset d aid).emergencyTransactions = d.emergencyTransactions ∧
     (confirmDeleteAsset d aid).healthLogs = d.healthLogs ∧
     (confirmDeleteAsset d aid).settings = d.settings) ∧
    ((handleDeleteAsset d aid).deposits = d.deposits ∧
     (∀ a : Asset, a ∈ (handleDeleteAsset d aid).assets ↔ a ∈ d.assets ∧ a.id ≠ aid) ∧
     (∀ s : Snapshot, s ∈ (handleDeleteAsset d aid).snapshots ↔
        s ∈ d.snapshots ∧ s.assetId ≠ aid) ∧
     (∀ t : Trade, t ∈ (handleDeleteAsset d aid).trades ↔
        t ∈ d.trades ∧ t.assetId ≠ aid) ∧
     (handleDeleteAsset d aid).expenses = d.expenses ∧
     (handleDeleteAsset d aid).savingsBuckets = d.savingsBuckets ∧
     (handleDeleteAsset d aid).savingsTransactions = d.savingsTransactions ∧
     (handleDeleteAsset d aid).emergencyTransactions = d.emergencyTransactions ∧
     (handleDeleteAsset d aid).healthLogs = d.healthLogs ∧
     (handleDeleteAsset d aid).settings = d.settings) := by
  refine ⟨⟨?_, ?_, ?_, ?_, rfl, rfl, rfl, rfl, rfl, rfl⟩,
    rfl, ?_, ?_, ?_, rfl, rfl, rfl, rfl, rfl, rfl⟩ <;>
    intro x <;>
    simp [confirmDeleteAsset, handleDeleteAsset, List.mem_filter]

/-- C6 witness: the deletion theorem applied to the concrete dataset shows the
Investments.tsx handler leaves the deposits collection unchanged. -/
theorem C6_witness : (handleDeleteAsset c6Data "A6").deposits = c6Data.deposits :=
  (C6_deleteAsset c6Data "A6").2.1

end LifeTrack
